import Mathlib

/-!
Verification of the geo-package-merger repository.

The repository contains four TypeScript scripts that merge two SQLite-based
GeoPackage files: `src/merge.ts` (argument-driven, the most complete variant),
`src/unnamed/part_000` (argument-driven variant with per-table error
swallowing), `src/unnamed/part_001` and `src/unnamed/part_002` (fixed-path
variants that unlink an existing output).  This file gives a shallow embedding
of the string manipulation (Node `path.basename` / `path.extname` /
`String.replace` with a string pattern, which replaces only the first
occurrence), of the catalog filter (SQL `LIKE` patterns of the shape
`<literal>%`, where `_` inside the literal is a single-character wildcard and
comparison is ASCII case-insensitive), of the per-table merge pipeline of each
variant, and of each script's top-level control flow (validation, output-path
disambiguation, ATTACH/DETACH, exit codes).  Strings are `List Char`; the
filesystem is a list of existing paths; database behaviour that the scripts
only observe (does a table exist in the target, does the catalog hold a create
statement, does the INSERT succeed and with how many changed rows) is carried
by a per-table record of flags, mirroring exactly the observations the scripts
make.
-/

/-- The single-quote character, written via its code point so that it can be
used freely both in patterns and in constructed SQL text. -/
def squo : Char := Char.ofNat 39

/-! ## Node path model

`path.basename` strips any trailing slashes and keeps the part after the last
remaining slash; `path.extname` takes the suffix of the basename from its last
dot, unless that dot is the basename's first character.  JavaScript's
`String.prototype.replace` with a string pattern replaces only the first
occurrence of the pattern (and returns the string unchanged when the pattern
does not occur; an empty pattern with an empty replacement is the identity). -/

def stripTrailingSlashes (p : List Char) : List Char :=
  (p.reverse.dropWhile (fun c => c == '/')).reverse

def lastComponent (p : List Char) : List Char :=
  (p.reverse.takeWhile (fun c => c != '/')).reverse

def basenameL (p : List Char) : List Char :=
  if (stripTrailingSlashes p).isEmpty then (if p.isEmpty then [] else ['/'])
  else lastComponent (stripTrailingSlashes p)

/-- Split a name at its last dot: `lastDotSplit (pre ++ dot :: post) = (pre, post)`
with `post` dot-free; `none` when the name holds no dot. -/
def lastDotSplit : List Char → Option (List Char × List Char)
  | [] => none
  | c :: cs =>
    match lastDotSplit cs with
    | some (pre, post) => some (c :: pre, post)
    | none => if c = '.' then some ([], cs) else none

/-- Node `path.extname` on a name without directory components: the suffix from
the last dot, empty when there is no dot or the dot is the leading character. -/
def extnameL (b : List Char) : List Char :=
  match lastDotSplit b with
  | none => []
  | some (pre, post) => if pre.isEmpty then [] else '.' :: post

/-- JavaScript `s.replace(pat, "")` with a string pattern: remove the first
occurrence of `pat`, or return `s` unchanged when `pat` does not occur. -/
def replaceFirst (s pat : List Char) : List Char :=
  if pat.isPrefixOf s then s.drop pat.length
  else
    match s with
    | [] => []
    | c :: cs => c :: replaceFirst cs pat

/-- `getName` of `src/merge.ts`: `path.basename`, then remove the first
occurrence of the basename's `path.extname` text. -/
def getNameM (p : List Char) : List Char :=
  let b := basenameL p
  replaceFirst b (extnameL b)

/-- Derived output name of `src/merge.ts`. -/
def derivedNameM (f1 f2 : List Char) : List Char :=
  "merged_".toList ++ getNameM f1 ++ '_' :: getNameM f2 ++ ".gpkg".toList

/-- `createOutputFilename` of `src/merge.ts`: a *truthy* custom output is used
as given (the empty string is falsy in JavaScript and falls back to the
derived name). -/
def createOutputFilenameM (f1 f2 : List Char) (custom : Option (List Char)) : List Char :=
  match custom with
  | some c => if c.isEmpty then derivedNameM f1 f2 else c
  | none => derivedNameM f1 f2

/-- Timestamp disambiguation of `src/merge.ts`: remove the first occurrence of
the output's extension text, then append an underscore, the decimal timestamp
and the extension. -/
def disambiguateM (out ts : List Char) : List Char :=
  let ext := extnameL (basenameL out)
  replaceFirst out ext ++ '_' :: ts ++ ext


/-! ## ATTACH statement model

Every variant executes `ATTACH DATABASE '<file2>' AS source_db` with the
second input path interpolated verbatim between single quotes.  `parseLit`
models how SQLite tokenizes a single-quoted string literal starting right
after the opening quote: a doubled quote is an escaped quote, a lone quote
ends the literal; it returns the literal's value and the remaining text, or
`none` when the literal is never terminated. -/

def parseLit : List Char → Option (List Char × List Char)
  | [] => none
  | [c] => if c = squo then some ([], []) else none
  | c :: d :: rest =>
    if c = squo then
      if d = squo then (parseLit rest).map (fun vr => (squo :: vr.1, vr.2))
      else some ([], d :: rest)
    else (parseLit (d :: rest)).map (fun vr => (c :: vr.1, vr.2))

/-- The SQL text the scripts execute to attach the second input. -/
def attachStatementM (p : List Char) : List Char :=
  "ATTACH DATABASE ".toList ++ squo :: (p ++ squo :: " AS source_db".toList)

def attachHead : List Char := "ATTACH DATABASE ".toList ++ [squo]

/-- Parse an ATTACH statement of the shape the scripts build: the fixed
prefix, one single-quoted literal (the attached path as SQLite reads it), and
exactly the fixed ` AS source_db` tail.  `none` on any malformed statement. -/
def parseAttach (stmt : List Char) : Option (List Char) :=
  if attachHead.isPrefixOf stmt then
    match parseLit (stmt.drop attachHead.length) with
    | some (v, r) => if r = " AS source_db".toList then some v else none
    | none => none
  else none


/-! ## Catalog filter model

The listings filter `sqlite_master` rows with `name NOT LIKE '<lit>%'`
clauses.  In SQLite `LIKE` the trailing `%` matches any suffix, `_` inside the
literal matches any single character, and ASCII comparison is
case-insensitive.  `likeMatchLitPct lit n` decides `n LIKE lit%` for a
literal containing no `%`. -/

def likeMatchLitPct : List Char → List Char → Bool
  | [], _ => true
  | _ :: _, [] => false
  | p :: ps, c :: cs => (p = '_' || p.toLower = c.toLower) && likeMatchLitPct ps cs

/-- The three-clause filter of `getDataTables` in `src/merge.ts` and
`src/unnamed/part_000` (also inlined in `part_002`). -/
def isDataTableName (n : List Char) : Bool :=
  !likeMatchLitPct "sqlite_".toList n
    && !likeMatchLitPct "gpkg_".toList n
    && !likeMatchLitPct "rtree_".toList n

/-- `getDataTables` applied to a catalog's table names, in catalog order. -/
def getDataTablesM (names : List (List Char)) : List (List Char) :=
  names.filter isDataTableName

/-- The two-clause filter of the tables query in `src/unnamed/part_001`, which
has no `rtree_` clause. -/
def part001KeepName (n : List Char) : Bool :=
  !likeMatchLitPct "sqlite_".toList n && !likeMatchLitPct "gpkg_".toList n

/-- The tables listing of `src/unnamed/part_001`. -/
def part001TablesM (names : List (List Char)) : List (List Char) :=
  names.filter part001KeepName


/-! ## Per-table pipeline

A `TableSpec` records, for one source table, everything the scripts observe
about the databases while processing it: its name, whether
`tableExists(targetDb, name)` holds, the `sql` text `sqlite_master` returns
for it on the source (or `none`), whether executing that create statement on
the target succeeds, and the outcome of `INSERT INTO t SELECT * FROM
source_db.t` (`some changes`, or `none` when the statement throws, e.g. on a
constraint violation or type mismatch). -/

inductive TblErr where
  | noCreateSql
  | ddlFailed
  | insertFailed
deriving DecidableEq, Repr

structure TableSpec where
  name : List Char
  inTarget : Bool
  createSql : Option (List Char)
  ddlOk : Bool
  insertRows : Option Nat
deriving DecidableEq, Repr

/-- `createTableIfNotExists` of `src/merge.ts`: no-op when the target already
has the table; otherwise replay the source create statement, and *throw* when
the source catalog has none. -/
def createTableIfNotExistsM (t : TableSpec) : Except TblErr Unit :=
  if t.inTarget then Except.ok ()
  else
    match t.createSql with
    | some _ => if t.ddlOk then Except.ok () else Except.error TblErr.ddlFailed
    | none => Except.error TblErr.noCreateSql

/-- `insertTableData`: the `INSERT ... SELECT` outcome, `result.changes || 0`. -/
def insertTableDataM (t : TableSpec) : Except TblErr Nat :=
  match t.insertRows with
  | some n => Except.ok n
  | none => Except.error TblErr.insertFailed

/-- `processTable` of `src/merge.ts`: ensure the table, then insert. -/
def processTableM (t : TableSpec) : Except TblErr Nat :=
  match createTableIfNotExistsM t with
  | Except.error e => Except.error e
  | Except.ok _ => insertTableDataM t

/-- The per-table loop of `src/merge.ts`: the `catch` block logs and then
*re-throws* (`throw err`), so the first failing table aborts the whole loop. -/
def mergeTablesM : List TableSpec → Except TblErr Nat
  | [] => Except.ok 0
  | t :: ts =>
    match processTableM t with
    | Except.error e => Except.error e
    | Except.ok n =>
      match mergeTablesM ts with
      | Except.error e => Except.error e
      | Except.ok m => Except.ok (n + m)

/-- `createTableIfNotExists` of `src/unnamed/part_000`: same checks, but a
missing create statement returns `false` (skip) instead of throwing. -/
def createTableIfNotExistsP0 (t : TableSpec) : Except TblErr Bool :=
  if t.inTarget then Except.ok true
  else
    match t.createSql with
    | some _ => if t.ddlOk then Except.ok true else Except.error TblErr.ddlFailed
    | none => Except.ok false

/-- `processTable` of `src/unnamed/part_000`: skip (zero rows) when table
creation is refused, and a `try`/`catch` that converts any per-table error
into a zero-row result. -/
def processTableP0 (t : TableSpec) : Nat :=
  match createTableIfNotExistsP0 t with
  | Except.error _ => 0
  | Except.ok false => 0
  | Except.ok true =>
    match insertTableDataM t with
    | Except.ok n => n
    | Except.error _ => 0

/-- The per-table loop of `src/unnamed/part_000`: every table contributes its
(possibly zero) row count and the loop always runs to completion. -/
def mergeTablesP0 (ts : List TableSpec) : Nat :=
  (ts.map processTableP0).sum

/-! ## Top-level run of `src/merge.ts`

The script: usage check (`process.exit(1)` when fewer than two arguments),
then a `try` block — `validateFilesExist` (throws with HTTP status 400, i.e.
`BAD_REQUEST`, when an input is missing), size logging, timestamp
disambiguation when the output path exists, `copyFileSync`, opening both
handles, `getDataTables(sourceDb)`, `ATTACH`, the per-table loop (which
re-throws), `DETACH`, both `close` calls — and a `catch` that exits with 1 on
status 400 and 2 otherwise.  The model records the files the run creates and
deletes, the connection lifecycle events it performs, and its exit code.
Handle opening, the catalog query and the base-file copy are taken as
succeeding; `attachRuntimeOk` covers runtime attach failures beyond SQL
well-formedness of the interpolated statement. -/

inductive Event where
  | attach
  | detach
  | closeSource
  | closeTarget
deriving DecidableEq, Repr

structure RunInput where
  argc : Nat
  file1 : List Char
  file2 : List Char
  customOutput : Option (List Char)
  existing : List (List Char)
  timestamp : Nat
  sourceCatalog : List TableSpec
  attachRuntimeOk : Bool
deriving Repr

structure RunResult where
  exitCode : Nat
  printedUsage : Bool
  createdFiles : List (List Char)
  deletedFiles : List (List Char)
  events : List Event
  totalMerged : Option Nat
deriving DecidableEq, Repr

/-- The output path before disambiguation (module-level `outputFilename`). -/
def outputFilenameM (inp : RunInput) : List Char :=
  createOutputFilenameM inp.file1 inp.file2 inp.customOutput

/-- `finalOutputFilename`: timestamp-suffixed when the path already exists. -/
def finalOutputM (inp : RunInput) : List Char :=
  if outputFilenameM inp ∈ inp.existing then
    disambiguateM (outputFilenameM inp) (Nat.toDigits 10 inp.timestamp)
  else outputFilenameM inp

/-- Whether the `targetDb.exec(ATTACH ...)` call succeeds: the interpolated
statement must be well-formed SQL, and no runtime failure may occur. -/
def attachOkM (inp : RunInput) : Bool :=
  (parseAttach (attachStatementM inp.file2)).isSome && inp.attachRuntimeOk

/-- `getDataTables(sourceDb)`: the source catalog filtered by name. -/
def sourceTablesM (inp : RunInput) : List TableSpec :=
  inp.sourceCatalog.filter (fun t => isDataTableName t.name)

/-- One run of `src/merge.ts`. -/
def runMergeTs (inp : RunInput) : RunResult :=
  if inp.argc < 2 then
    { exitCode := 1, printedUsage := true, createdFiles := [], deletedFiles := []
      events := [], totalMerged := none }
  else if inp.file1 ∉ inp.existing ∨ inp.file2 ∉ inp.existing then
    { exitCode := 1, printedUsage := false, createdFiles := [], deletedFiles := []
      events := [], totalMerged := none }
  else
    if attachOkM inp then
      match mergeTablesM (sourceTablesM inp) with
      | Except.ok n =>
        { exitCode := 0, printedUsage := false, createdFiles := [finalOutputM inp]
          deletedFiles := []
          events := [Event.attach, Event.detach, Event.closeSource, Event.closeTarget]
          totalMerged := some n }
      | Except.error _ =>
        { exitCode := 2, printedUsage := false, createdFiles := [finalOutputM inp]
          deletedFiles := [], events := [Event.attach], totalMerged := none }
    else
      { exitCode := 2, printedUsage := false, createdFiles := [finalOutputM inp]
        deletedFiles := [], events := [], totalMerged := none }

/-! ## The fixed-path variants `part_001` and `part_002`

Both hard-code their input and output paths, `unlinkSync` an existing output
before copying the base file over it, and have a top-level `catch` that only
logs — no `process.exit` call — so the Node process always terminates with
exit code 0, failure or not.  `part_001` inserts with `INSERT OR IGNORE` and
never creates missing tables; `part_002` creates a missing table when the
source catalog has its statement and otherwise lets the insert throw; in both,
per-table errors are caught and skipped. -/

structure ScriptWorld where
  file1Exists : Bool
  file2Exists : Bool
  outputExists : Bool
  sourceCatalog : List TableSpec
  attachRuntimeOk : Bool
deriving Repr

structure ScriptResult where
  exitCode : Nat
  failed : Bool
  deletedFiles : List (List Char)
  createdFiles : List (List Char)
  totalMerged : Option Nat
deriving DecidableEq, Repr

def part001Output : List Char := "./merged_complete.gpkg".toList

def part001File2 : List Char := "./data/test_south.gpkg".toList

/-- Per-table contribution in `part_001`: `INSERT OR IGNORE` changes, with a
throwing insert caught and skipped. -/
def part001Insert (t : TableSpec) : Nat := t.insertRows.getD 0

/-- One run of `src/unnamed/part_001`. -/
def runPart001 (w : ScriptWorld) : ScriptResult :=
  if !w.file1Exists || !w.file2Exists then
    { exitCode := 0, failed := true, deletedFiles := [], createdFiles := []
      totalMerged := none }
  else
    let del := if w.outputExists then [part001Output] else []
    if (parseAttach (attachStatementM part001File2)).isSome && w.attachRuntimeOk then
      { exitCode := 0, failed := false, deletedFiles := del, createdFiles := [part001Output]
        totalMerged :=
          some ((w.sourceCatalog.filter (fun t => part001KeepName t.name)).map
            part001Insert).sum }
    else
      { exitCode := 0, failed := true, deletedFiles := del, createdFiles := [part001Output]
        totalMerged := none }

def part002Output : List Char := "./merged_syria_bluemarble.gpkg".toList

def part002File2 : List Char := "./data/blueMarble.gpkg".toList

/-- Per-table outcome in `part_002`: insert directly when the table exists;
otherwise create it first when the source catalog has a statement, and let the
insert throw when it does not (the table is still missing). -/
def part002TableResult (t : TableSpec) : Except TblErr Nat :=
  if t.inTarget then insertTableDataM t
  else
    match t.createSql with
    | some _ => if t.ddlOk then insertTableDataM t else Except.error TblErr.ddlFailed
    | none => Except.error TblErr.insertFailed

/-- Per-table contribution in `part_002`: its `try`/`catch` turns any error
into zero rows. -/
def part002ProcessTable (t : TableSpec) : Nat :=
  match part002TableResult t with
  | Except.ok n => n
  | Except.error _ => 0

/-- One run of `src/unnamed/part_002`. -/
def runPart002 (w : ScriptWorld) : ScriptResult :=
  if !w.file1Exists || !w.file2Exists then
    { exitCode := 0, failed := true, deletedFiles := [], createdFiles := []
      totalMerged := none }
  else
    let del := if w.outputExists then [part002Output] else []
    if (parseAttach (attachStatementM part002File2)).isSome && w.attachRuntimeOk then
      { exitCode := 0, failed := false, deletedFiles := del, createdFiles := [part002Output]
        totalMerged :=
          some ((w.sourceCatalog.filter (fun t => isDataTableName t.name)).map
            part002ProcessTable).sum }
    else
      { exitCode := 0, failed := true, deletedFiles := del, createdFiles := [part002Output]
        totalMerged := none }

/-- The output filename described by the spec's words for the default
derivation: the input's basename with its container-format (`.gpkg`)
extension removed.  Stated from the spec, to be compared with
`createOutputFilenameM`, which is translated from the source. -/
def specGetName (p : List Char) : List Char :=
  let b := basenameL p
  if (".gpkg".toList).isSuffixOf b then b.take (b.length - 5) else b

/-- The spec's derived output name, for comparison with `derivedNameM`. -/
def specOutputFilename (f1 f2 : List Char) : List Char :=
  "merged_".toList ++ specGetName f1 ++ '_' :: specGetName f2 ++ ".gpkg".toList

/-- Whether an `Except` outcome is a success, used to state exit-code facts. -/
def exOk : Except TblErr Nat → Bool
  | Except.ok _ => true
  | Except.error _ => false

/-- The fixed ` AS source_db` tail of the attach statement. -/
def attachTailT : List Char := " AS source_db".toList

/-! ## Concrete inputs used by the per-claim counterexamples and witnesses -/

/-- Three source tables, all present in the target, the middle one's
`INSERT ... SELECT` throwing (e.g. a primary-key collision). -/
def inpC1 : RunInput :=
  { argc := 2, file1 := "a.gpkg".toList, file2 := "b.gpkg".toList, customOutput := none
    existing := ["a.gpkg".toList, "b.gpkg".toList], timestamp := 0
    sourceCatalog :=
      [ { name := "roads".toList, inTarget := true, createSql := none, ddlOk := true
          insertRows := some 5 }
      , { name := "cities".toList, inTarget := true, createSql := none, ddlOk := true
          insertRows := none }
      , { name := "rivers".toList, inTarget := true, createSql := none, ddlOk := true
          insertRows := some 3 } ]
    attachRuntimeOk := true }

/-- A table absent from the target whose create statement is missing from the
source catalog, followed by a healthy table. -/
def tC2miss : TableSpec :=
  { name := "lakes".toList, inTarget := false, createSql := none, ddlOk := true
    insertRows := some 4 }

def inpC2 : RunInput :=
  { argc := 2, file1 := "a.gpkg".toList, file2 := "b.gpkg".toList, customOutput := none
    existing := ["a.gpkg".toList, "b.gpkg".toList], timestamp := 0
    sourceCatalog :=
      [ tC2miss
      , { name := "ponds".toList, inTarget := true, createSql := none, ddlOk := true
          insertRows := some 7 } ]
    attachRuntimeOk := true }

/-- A run whose attach succeeds and whose second table's insert throws. -/
def inpC3bad : RunInput :=
  { argc := 2, file1 := "a.gpkg".toList, file2 := "b.gpkg".toList, customOutput := none
    existing := ["a.gpkg".toList, "b.gpkg".toList], timestamp := 0
    sourceCatalog :=
      [ { name := "roads".toList, inTarget := true, createSql := none, ddlOk := true
          insertRows := some 5 }
      , { name := "cities".toList, inTarget := true, createSql := none, ddlOk := true
          insertRows := none } ]
    attachRuntimeOk := true }

/-- A fully healthy run. -/
def inpC3ok : RunInput :=
  { argc := 2, file1 := "a.gpkg".toList, file2 := "b.gpkg".toList, customOutput := none
    existing := ["a.gpkg".toList, "b.gpkg".toList], timestamp := 0
    sourceCatalog :=
      [ { name := "roads".toList, inTarget := true, createSql := none, ddlOk := true
          insertRows := some 5 } ]
    attachRuntimeOk := true }

/-- A world where `part_002`'s fixed output path already exists. -/
def wC4 : ScriptWorld :=
  { file1Exists := true, file2Exists := true, outputExists := true, sourceCatalog := []
    attachRuntimeOk := true }

/-- A `merge.ts` run whose derived output name already exists on disk. -/
def inpC4 : RunInput :=
  { argc := 2, file1 := "a.gpkg".toList, file2 := "b.gpkg".toList, customOutput := none
    existing := ["a.gpkg".toList, "b.gpkg".toList, "merged_a_b.gpkg".toList], timestamp := 42
    sourceCatalog := [], attachRuntimeOk := true }

/-- A `part_001` world whose first fixed input file is missing. -/
def wC5 : ScriptWorld :=
  { file1Exists := false, file2Exists := true, outputExists := false, sourceCatalog := []
    attachRuntimeOk := true }

/-- A `merge.ts` run with a missing second input. -/
def inpC5w : RunInput :=
  { argc := 2, file1 := "a.gpkg".toList, file2 := "missing.gpkg".toList, customOutput := none
    existing := ["a.gpkg".toList], timestamp := 0, sourceCatalog := [], attachRuntimeOk := true }

/-- A `merge.ts` run with a missing first input. -/
def inpC6 : RunInput :=
  { argc := 2, file1 := "ghost.gpkg".toList, file2 := "b.gpkg".toList, customOutput := none
    existing := ["b.gpkg".toList], timestamp := 0, sourceCatalog := [], attachRuntimeOk := true }

/-- An invocation with a single command-line argument. -/
def inpC9 : RunInput :=
  { argc := 1, file1 := "a.gpkg".toList, file2 := [], customOutput := none
    existing := [], timestamp := 0, sourceCatalog := [], attachRuntimeOk := true }

/-- A source path holding a doubled single quote: SQLite parses the doubled
quote as one escaped quote, so the interpolated statement is well-formed but
names a different file. -/
def pEsc : List Char := "a".toList ++ squo :: squo :: "b.gpkg".toList

def inpC10e : RunInput :=
  { argc := 2, file1 := "a.gpkg".toList, file2 := pEsc, customOutput := none
    existing := ["a.gpkg".toList, pEsc], timestamp := 0, sourceCatalog := []
    attachRuntimeOk := true }

/-- A source path holding one (unpaired) single quote. -/
def pQuote : List Char := "a".toList ++ squo :: "b.gpkg".toList

def inpC10w : RunInput :=
  { argc := 2, file1 := "a.gpkg".toList, file2 := pQuote, customOutput := none
    existing := ["a.gpkg".toList, pQuote], timestamp := 0, sourceCatalog := []
    attachRuntimeOk := true }

/-- A healthy table used to instantiate the amended per-table theorems. -/
def tWa : TableSpec :=
  { name := "w1".toList, inTarget := true, createSql := none, ddlOk := true
    insertRows := some 5 }

/-- A table whose insert throws, used to instantiate the amended theorems. -/
def tWbad : TableSpec :=
  { name := "w2".toList, inTarget := true, createSql := none, ddlOk := true
    insertRows := none }

/-- A second healthy table. -/
def tWb : TableSpec :=
  { name := "w3".toList, inTarget := true, createSql := none, ddlOk := true
    insertRows := some 3 }

/-- A table absent from the target with no create statement in the source. -/
def tW2 : TableSpec :=
  { name := "w4".toList, inTarget := false, createSql := none, ddlOk := true
    insertRows := some 9 }

/-! ## Helper lemmas -/

theorem isPrefixOf_length {p s : List Char} (h : p.isPrefixOf s) : p.length ≤ s.length :=
  (List.isPrefixOf_iff_prefix.mp h).length_le

theorem replaceFirst_length (s pat : List Char) :
    s.length ≤ (replaceFirst s pat).length + pat.length := by
  induction s with
  | nil =>
    unfold replaceFirst
    split
    · simp
    · simp
  | cons c cs ih =>
    unfold replaceFirst
    split
    · rename_i hp
      have := isPrefixOf_length hp
      simp [List.length_drop]
      omega
    · simp only [List.length_cons]
      omega

theorem disambiguateM_ne (out ts : List Char) : disambiguateM out ts ≠ out := by
  intro h
  have h1 := congrArg List.length h
  have h2 := replaceFirst_length out (extnameL (basenameL out))
  simp only [disambiguateM, List.length_append, List.length_cons] at h1
  omega

theorem likeOfIsPrefix : ∀ (lit n : List Char), lit.isPrefixOf n = true →
    likeMatchLitPct lit n = true
  | [], _, _ => rfl
  | _ :: _, [], h => by simp [List.isPrefixOf] at h
  | p :: ps, c :: cs, h => by
    have h' : (p == c && ps.isPrefixOf cs) = true := h
    rw [Bool.and_eq_true] at h'
    obtain ⟨hpc, hps⟩ := h'
    have hpc' : p = c := by simpa using hpc
    simp [likeMatchLitPct, hpc', likeOfIsPrefix ps cs hps]

theorem notPrefixOfNotLike {lit n : List Char} (h : likeMatchLitPct lit n = false) :
    lit.isPrefixOf n = false := by
  cases hp : lit.isPrefixOf n
  · rfl
  · have := likeOfIsPrefix lit n hp
    rw [this] at h
    cases h

theorem parseLit_noquote : ∀ (s : List Char), squo ∉ s → parseLit s = none
  | [], _ => rfl
  | [c], h => by
    have hc : ¬ c = squo := fun he => h (he ▸ List.mem_singleton_self c)
    simp [parseLit, hc]
  | c :: d :: rest, h => by
    have hc : ¬ c = squo := fun he => h (he ▸ List.mem_cons_self c (d :: rest))
    have ih := parseLit_noquote (d :: rest) (fun hm => h (List.mem_cons_of_mem c hm))
    simp [parseLit, hc, ih]

theorem parseLit_prepend : ∀ (a rest : List Char), squo ∉ a →
    parseLit (a ++ rest) = (parseLit rest).map (fun vr => (a ++ vr.1, vr.2))
  | [], rest, _ => by cases h : parseLit rest <;> simp [h]
  | x :: a', rest, h => by
    have hx : ¬ x = squo := fun he => h (he ▸ List.mem_cons_self x a')
    have ih := parseLit_prepend a' rest (fun hm => h (List.mem_cons_of_mem x hm))
    cases har : a' ++ rest with
    | nil =>
      obtain ⟨ha', hrest⟩ := List.append_eq_nil.mp har
      subst ha'
      subst hrest
      simp [parseLit, hx]
    | cons d tail =>
      show parseLit (x :: (a' ++ rest)) = _
      rw [har]
      simp only [parseLit, if_neg hx]
      rw [← har, ih]
      cases hr : parseLit rest with
      | none => simp
      | some vr => simp

theorem lastDotSplit_nodot : ∀ (s : List Char), '.' ∉ s → lastDotSplit s = none
  | [], _ => rfl
  | c :: cs, h => by
    have hc : ¬ c = '.' := fun he => h (he ▸ List.mem_cons_self c cs)
    have ih := lastDotSplit_nodot cs (fun hm => h (List.mem_cons_of_mem c hm))
    simp [lastDotSplit, ih, hc]

theorem lastDotSplit_last (s t : List Char) (ht : '.' ∉ t) :
    lastDotSplit (s ++ '.' :: t) = some (s, t) := by
  induction s with
  | nil => simp [lastDotSplit, lastDotSplit_nodot t ht]
  | cons c s' ih => simp [lastDotSplit, ih]

theorem dropWhileAllFalse (p : Char → Bool) (l : List Char) (h : ∀ c ∈ l, p c = false) :
    l.dropWhile p = l := by
  cases l with
  | nil => rfl
  | cons c cs => simp [List.dropWhile_cons, h c (List.mem_cons_self c cs)]

theorem takeWhileAllTrue (p : Char → Bool) : ∀ (l : List Char), (∀ c ∈ l, p c = true) →
    l.takeWhile p = l
  | [], _ => rfl
  | c :: cs, h => by
    have ih := takeWhileAllTrue p cs (fun d hd => h d (List.mem_cons_of_mem c hd))
    simp [List.takeWhile_cons, h c (List.mem_cons_self c cs), ih]

theorem basenameL_no_slash (p : List Char) (h : '/' ∉ p) : basenameL p = p := by
  have hpred : ∀ c ∈ p.reverse, ¬ c = '/' := by
    intro c hc
    exact fun he => h (he ▸ List.mem_reverse.mp hc)
  have hstrip : stripTrailingSlashes p = p := by
    unfold stripTrailingSlashes
    rw [dropWhileAllFalse _ _ (fun c hc => by simp [hpred c hc]), List.reverse_reverse]
  have hlast : lastComponent p = p := by
    unfold lastComponent
    rw [takeWhileAllTrue _ _ (fun c hc => by simp [hpred c hc]), List.reverse_reverse]
  unfold basenameL
  rw [hstrip]
  cases hp : p.isEmpty with
  | false => simp only [hp, Bool.false_eq_true, if_false, hlast]
  | true =>
    have hp0 : p = [] := List.isEmpty_iff.mp hp
    subst hp0
    rfl

theorem replaceFirstBoundary (c : Char) (rest : List Char) :
    ∀ (s : List Char), c ∉ s → replaceFirst (s ++ c :: rest) (c :: rest) = s
  | [], _ => by
    show replaceFirst (c :: rest) (c :: rest) = []
    unfold replaceFirst
    rw [if_pos (List.isPrefixOf_iff_prefix.mpr (List.prefix_refl _))]
    exact List.drop_length _
  | x :: s', h => by
    have hx : ¬ (c = x) := fun he => h (he ▸ List.mem_cons_self x s')
    have ih := replaceFirstBoundary c rest s' (fun hm => h (List.mem_cons_of_mem x hm))
    show replaceFirst (x :: (s' ++ c :: rest)) (c :: rest) = x :: s'
    unfold replaceFirst
    rw [if_neg (by
      show ¬ ((c :: rest).isPrefixOf (x :: (s' ++ c :: rest)) = true)
      show ¬ ((c == x && rest.isPrefixOf (s' ++ c :: rest)) = true)
      simp [hx])]
    show x :: replaceFirst (s' ++ c :: rest) (c :: rest) = x :: s'
    rw [ih]

theorem getNameM_simple (s : List Char) (hne : s ≠ []) (hd : '.' ∉ s) (hs : '/' ∉ s) :
    getNameM (s ++ ".gpkg".toList) = s := by
  have hnos : '/' ∉ s ++ ".gpkg".toList := by
    intro hm
    rcases List.mem_append.mp hm with h1 | h2
    · exact hs h1
    · simp at h2
  have hb : basenameL (s ++ ".gpkg".toList) = s ++ ".gpkg".toList :=
    basenameL_no_slash _ hnos
  have hform : s ++ ".gpkg".toList = s ++ '.' :: "gpkg".toList := rfl
  have hsplit : lastDotSplit (s ++ ".gpkg".toList) = some (s, "gpkg".toList) := by
    rw [hform]
    exact lastDotSplit_last s "gpkg".toList (by decide)
  have hext : extnameL (s ++ ".gpkg".toList) = ".gpkg".toList := by
    unfold extnameL
    rw [hsplit]
    have hse : s.isEmpty = false := by
      cases s with
      | nil => exact absurd rfl hne
      | cons a as => rfl
    show (if s.isEmpty = true then [] else '.' :: "gpkg".toList) = ".gpkg".toList
    rw [hse]
    rfl
  show replaceFirst (basenameL (s ++ ".gpkg".toList))
      (extnameL (basenameL (s ++ ".gpkg".toList))) = s
  rw [hb, hext, hform]
  exact replaceFirstBoundary '.' "gpkg".toList s hd

theorem mergeTablesP0_append (l1 l2 : List TableSpec) :
    mergeTablesP0 (l1 ++ l2) = mergeTablesP0 l1 + mergeTablesP0 l2 := by
  simp [mergeTablesP0, List.sum_append]

theorem mergeTablesP0_cons (t : TableSpec) (l : List TableSpec) :
    mergeTablesP0 (t :: l) = processTableP0 t + mergeTablesP0 l := by
  simp [mergeTablesP0]

theorem processTableP0_insertThrows (t : TableSpec) (h : t.insertRows = none) :
    processTableP0 t = 0 := by
  unfold processTableP0
  cases hc : createTableIfNotExistsP0 t with
  | error e => rfl
  | ok b =>
    cases b with
    | false => rfl
    | true => simp [insertTableDataM, h]

theorem createP0_skips (t : TableSpec) (h1 : t.inTarget = false) (h2 : t.createSql = none) :
    createTableIfNotExistsP0 t = Except.ok false := by
  simp [createTableIfNotExistsP0, h1, h2]

theorem processTableP0_noCreate (t : TableSpec) (h1 : t.inTarget = false)
    (h2 : t.createSql = none) : processTableP0 t = 0 := by
  unfold processTableP0
  rw [createP0_skips t h1 h2]

theorem parseAttach_ofStatement (p : List Char) :
    parseAttach (attachStatementM p) =
      match parseLit (p ++ squo :: " AS source_db".toList) with
      | some (v, r) => if r = " AS source_db".toList then some v else none
      | none => none := by
  have hsplit : attachStatementM p = attachHead ++ (p ++ squo :: " AS source_db".toList) := by
    simp [attachStatementM, attachHead]
  rw [hsplit]
  unfold parseAttach
  rw [if_pos (List.isPrefixOf_iff_prefix.mpr (List.prefix_append _ _)), List.drop_left]

theorem parseAttach_unpairedQuote (a b : List Char) (ha : squo ∉ a) (hb : squo ∉ b) :
    parseAttach (attachStatementM (a ++ squo :: b)) = none := by
  rw [parseAttach_ofStatement]
  have hassoc : (a ++ squo :: b) ++ squo :: " AS source_db".toList
      = a ++ squo :: (b ++ squo :: " AS source_db".toList) := by
    simp
  rw [hassoc, parseLit_prepend a _ ha]
  cases b with
  | nil =>
    have h1 : parseLit (squo :: ([] ++ squo :: " AS source_db".toList))
        = (parseLit (" AS source_db".toList)).map (fun vr => (squo :: vr.1, vr.2)) := by
      show parseLit (squo :: squo :: " AS source_db".toList) = _
      simp [parseLit]
    rw [h1, parseLit_noquote (" AS source_db".toList) (by decide)]
    rfl
  | cons b0 b' =>
    have hb0 : ¬ b0 = squo := fun he => hb (he ▸ List.mem_cons_self b0 b')
    have h1 : parseLit (squo :: ((b0 :: b') ++ squo :: " AS source_db".toList))
        = some ([], (b0 :: b') ++ squo :: " AS source_db".toList) := by
      show parseLit (squo :: b0 :: (b' ++ squo :: " AS source_db".toList)) = _
      simp [parseLit, hb0]
    rw [h1]
    have hne : (b0 :: b') ++ squo :: " AS source_db".toList ≠ " AS source_db".toList := by
      intro he
      have := congrArg List.length he
      simp at this
    show (if (b0 :: b') ++ squo :: " AS source_db".toList = " AS source_db".toList
        then some (a ++ ([] : List Char)) else none) = none
    rw [if_neg hne]

theorem processTableM_err (t : TableSpec) (h : t.insertRows = none) :
    ∃ e, processTableM t = Except.error e := by
  unfold processTableM
  cases hc : createTableIfNotExistsM t with
  | error e => exact ⟨e, rfl⟩
  | ok u => exact ⟨TblErr.insertFailed, by simp [insertTableDataM, h]⟩

theorem mergeTablesM_hasErr (t : TableSpec) (h : t.insertRows = none) :
    ∀ (l1 l2 : List TableSpec), exOk (mergeTablesM (l1 ++ t :: l2)) = false
  | [], l2 => by
    obtain ⟨e, he⟩ := processTableM_err t h
    show exOk (mergeTablesM (t :: l2)) = false
    unfold mergeTablesM
    rw [he]
    rfl
  | hd :: tl, l2 => by
    have ih := mergeTablesM_hasErr t h tl l2
    show exOk (mergeTablesM (hd :: (tl ++ t :: l2))) = false
    unfold mergeTablesM
    cases hp : processTableM hd with
    | error e => rfl
    | ok n =>
      cases hm : mergeTablesM (tl ++ t :: l2) with
      | error e => rfl
      | ok m =>
        rw [hm] at ih
        cases ih

theorem runMergeTs_files (inp : RunInput) (h1 : ¬ inp.argc < 2)
    (hmiss : ¬ (inp.file1 ∉ inp.existing ∨ inp.file2 ∉ inp.existing)) :
    (runMergeTs inp).deletedFiles = [] ∧
    (runMergeTs inp).createdFiles = [finalOutputM inp] := by
  unfold runMergeTs
  rw [if_neg h1, if_neg hmiss]
  by_cases h3 : attachOkM inp = true
  · rw [if_pos h3]
    cases hm : mergeTablesM (sourceTablesM inp) with
    | error e => exact ⟨rfl, rfl⟩
    | ok n => exact ⟨rfl, rfl⟩
  · rw [if_neg h3]
    exact ⟨rfl, rfl⟩

/-! ## Claims -/

/-- C1, counterexample: in `src/merge.ts` a failing `INSERT ... SELECT` is
caught, logged, and *re-thrown* by the per-table loop.  On a run with three
source tables whose middle table's insert throws, the run aborts with exit
code 2 and reports no merge total, instead of continuing with the remaining
tables as the claim states. -/
theorem c1_counterexample :
    (runMergeTs inpC1).exitCode = 2 ∧ (runMergeTs inpC1).totalMerged = none ∧
    exOk (mergeTablesM (sourceTablesM inpC1)) = false := by decide

/-- C1, amended: the per-table isolation the claim describes holds in the
`src/unnamed/part_000` variant — a table whose insert throws contributes zero
rows and the remaining tables are still processed — while in `src/merge.ts`
the per-table loop re-throws, so any list containing such a table makes the
whole loop fail. -/
theorem c1_amended (l1 l2 : List TableSpec) (t : TableSpec) (h : t.insertRows = none) :
    exOk (mergeTablesM (l1 ++ t :: l2)) = false ∧
    processTableP0 t = 0 ∧
    mergeTablesP0 (l1 ++ t :: l2) = mergeTablesP0 l1 + mergeTablesP0 l2 := by
  refine ⟨mergeTablesM_hasErr t h l1 l2, processTableP0_insertThrows t h, ?_⟩
  rw [mergeTablesP0_append, mergeTablesP0_cons, processTableP0_insertThrows t h, Nat.zero_add]

/-- C1, witness: the amended claim at a three-table list whose middle table's
insert throws. -/
theorem c1_witness :
    exOk (mergeTablesM ([tWa] ++ tWbad :: [tWb])) = false ∧
    processTableP0 tWbad = 0 ∧
    mergeTablesP0 ([tWa] ++ tWbad :: [tWb]) = mergeTablesP0 [tWa] + mergeTablesP0 [tWb] :=
  c1_amended [tWa] [tWb] tWbad rfl

/-- C2, counterexample: `createTableIfNotExists` in `src/merge.ts` *throws*
(`Could not get table structure`) when the source catalog has no create
statement for a table missing from the target; through the re-throwing
per-table loop this aborts the run with exit code 2 instead of skipping the
table and continuing. -/
theorem c2_counterexample :
    createTableIfNotExistsM tC2miss = Except.error TblErr.noCreateSql ∧
    (runMergeTs inpC2).exitCode = 2 ∧ (runMergeTs inpC2).totalMerged = none :=
  ⟨rfl, by decide, by decide⟩

/-- C2, amended: the claimed skip-and-continue behaviour is that of
`src/unnamed/part_000`, whose `createTableIfNotExists` returns `false`
(creation failed) without raising so the table contributes zero rows and
merging continues; `src/merge.ts` instead throws the table-structure error. -/
theorem c2_amended (l1 l2 : List TableSpec) (t : TableSpec) (h1 : t.inTarget = false)
    (h2 : t.createSql = none) :
    createTableIfNotExistsP0 t = Except.ok false ∧
    createTableIfNotExistsM t = Except.error TblErr.noCreateSql ∧
    processTableP0 t = 0 ∧
    mergeTablesP0 (l1 ++ t :: l2) = mergeTablesP0 l1 + mergeTablesP0 l2 := by
  refine ⟨createP0_skips t h1 h2, ?_, processTableP0_noCreate t h1 h2, ?_⟩
  · simp [createTableIfNotExistsM, h1, h2]
  · rw [mergeTablesP0_append, mergeTablesP0_cons, processTableP0_noCreate t h1 h2,
      Nat.zero_add]

/-- C2, witness: the amended claim at a table absent from the target whose
create statement is missing, surrounded by two healthy tables. -/
theorem c2_witness :
    createTableIfNotExistsP0 tW2 = Except.ok false ∧
    createTableIfNotExistsM tW2 = Except.error TblErr.noCreateSql ∧
    processTableP0 tW2 = 0 ∧
    mergeTablesP0 ([tWa] ++ tW2 :: [tWb]) = mergeTablesP0 [tWa] + mergeTablesP0 [tWb] :=
  c2_amended [tWa] [tWb] tW2 rfl rfl

/-- C6: with at least two arguments and a missing input file, `src/merge.ts`
exits with code 1 having created and deleted nothing — `validateFilesExist`
runs before the base-file copy, so the filesystem is left unchanged. -/
theorem c6_missingInput (inp : RunInput) (h2 : 2 ≤ inp.argc)
    (hm : inp.file1 ∉ inp.existing ∨ inp.file2 ∉ inp.existing) :
    runMergeTs inp =
      { exitCode := 1, printedUsage := false, createdFiles := [], deletedFiles := []
        events := [], totalMerged := none } := by
  unfold runMergeTs
  rw [if_neg (by omega : ¬ inp.argc < 2), if_pos hm]

/-- C6, witness: a run whose first input is missing. -/
theorem c6_witness :
    runMergeTs inpC6 =
      { exitCode := 1, printedUsage := false, createdFiles := [], deletedFiles := []
        events := [], totalMerged := none } :=
  c6_missingInput inpC6 (by decide) (by decide)

/-- C9: with fewer than two arguments, `src/merge.ts` prints the usage text
and exits with code 1 before touching the filesystem: nothing is created or
deleted and no database event happens. -/
theorem c9_usage (inp : RunInput) (h : inp.argc < 2) :
    runMergeTs inp =
      { exitCode := 1, printedUsage := true, createdFiles := [], deletedFiles := []
        events := [], totalMerged := none } := by
  unfold runMergeTs
  rw [if_pos h]

/-- C9, witness: an invocation with one argument. -/
theorem c9_witness :
    runMergeTs inpC9 =
      { exitCode := 1, printedUsage := true, createdFiles := [], deletedFiles := []
        events := [], totalMerged := none } :=
  c9_usage inpC9 (by decide)

/-- C7, counterexample: the tables query of `src/unnamed/part_001` omits the
`rtree_` clause, so it is not the identical filter: it returns a
`rtree_`-prefixed name that `getDataTables` (used by the other variants)
excludes. -/
theorem c7_counterexample :
    part001TablesM ["rtree_demo".toList] = ["rtree_demo".toList] ∧
    ("rtree_".toList).isPrefixOf "rtree_demo".toList = true ∧
    getDataTablesM ["rtree_demo".toList] = [] := by decide

/-- C7, amended: every name returned by the three-clause `getDataTables`
filter (used in `src/merge.ts`, `part_000` and `part_002`) begins with none of
the reserved prefixes; the filter is however not applied identically in every
listing, since `part_001`'s query lacks the `rtree_` clause. -/
theorem c7_amended : ∀ (names : List (List Char)) (n : List Char),
    n ∈ getDataTablesM names →
    ("sqlite_".toList).isPrefixOf n = false ∧
    ("gpkg_".toList).isPrefixOf n = false ∧
    ("rtree_".toList).isPrefixOf n = false := by
  intro names n hn
  rw [getDataTablesM, List.mem_filter] at hn
  obtain ⟨-, hf⟩ := hn
  unfold isDataTableName at hf
  rw [Bool.and_eq_true, Bool.and_eq_true] at hf
  obtain ⟨⟨ha, hb⟩, hc⟩ := hf
  rw [Bool.not_eq_true'] at ha hb hc
  exact ⟨notPrefixOfNotLike ha, notPrefixOfNotLike hb, notPrefixOfNotLike hc⟩

/-- C7, witness: the amended claim at a one-name catalog. -/
theorem c7_witness :
    ("sqlite_".toList).isPrefixOf "roads".toList = false ∧
    ("gpkg_".toList).isPrefixOf "roads".toList = false ∧
    ("rtree_".toList).isPrefixOf "roads".toList = false :=
  c7_amended ["roads".toList] "roads".toList (by decide)

/-- C8, counterexample: `getName` removes the *first* occurrence of the
extension text anywhere in the basename, not the trailing extension: for
`x.gpkgy.gpkg` the derived output is `merged_xy.gpkg_b.gpkg`, not the
`merged_x.gpkgy_b.gpkg` the claim's description yields. -/
theorem c8_counterexample :
    createOutputFilenameM "x.gpkgy.gpkg".toList "b.gpkg".toList none
      = "merged_xy.gpkg_b.gpkg".toList ∧
    createOutputFilenameM "x.gpkgy.gpkg".toList "b.gpkg".toList none
      ≠ specOutputFilename "x.gpkgy.gpkg".toList "b.gpkg".toList := by decide

/-- C8, amended: a nonempty supplied output argument is used exactly as given
(the empty string falls back to the derived name), and for inputs whose
basename is a dot-free, slash-free stem followed by `.gpkg` — where removing
the first occurrence of the extension text coincides with removing the
trailing extension — the derived name is `merged_<stem1>_<stem2>.gpkg`. -/
theorem c8_amended :
    (∀ (f1 f2 c : List Char), c ≠ [] → createOutputFilenameM f1 f2 (some c) = c) ∧
    (∀ (s1 s2 : List Char), s1 ≠ [] → '.' ∉ s1 → '/' ∉ s1 → s2 ≠ [] → '.' ∉ s2 → '/' ∉ s2 →
      createOutputFilenameM (s1 ++ ".gpkg".toList) (s2 ++ ".gpkg".toList) none
        = "merged_".toList ++ s1 ++ '_' :: s2 ++ ".gpkg".toList) := by
  constructor
  · intro f1 f2 c hc
    have hce : c.isEmpty = false := by
      cases c with
      | nil => exact absurd rfl hc
      | cons x xs => rfl
    show (if c.isEmpty = true then derivedNameM f1 f2 else c) = c
    rw [hce]
    rfl
  · intro s1 s2 h1 h2 h3 h4 h5 h6
    show derivedNameM (s1 ++ ".gpkg".toList) (s2 ++ ".gpkg".toList) = _
    unfold derivedNameM
    rw [getNameM_simple s1 h1 h2 h3, getNameM_simple s2 h4 h5 h6]

/-- C8, witness: the amended claim at a supplied output name and at the stems
`north` and `south`. -/
theorem c8_witness :
    createOutputFilenameM "a.gpkg".toList "b.gpkg".toList (some "out.gpkg".toList)
      = "out.gpkg".toList ∧
    createOutputFilenameM ("north".toList ++ ".gpkg".toList)
      ("south".toList ++ ".gpkg".toList) none
      = "merged_".toList ++ "north".toList ++ '_' :: "south".toList ++ ".gpkg".toList :=
  ⟨c8_amended.1 "a.gpkg".toList "b.gpkg".toList "out.gpkg".toList (by decide),
   c8_amended.2 "north".toList "south".toList (by decide) (by decide) (by decide)
     (by decide) (by decide) (by decide)⟩

/-- C3, counterexample: on a run whose attach succeeds and whose second
table's insert throws, `src/merge.ts` re-throws out of the loop straight into
the top-level `catch`, which calls `process.exit(2)`: DETACH never executes
and neither handle is closed, contradicting the claimed every-exit-path
discipline. -/
theorem c3_counterexample :
    Event.attach ∈ (runMergeTs inpC3bad).events ∧
    Event.detach ∉ (runMergeTs inpC3bad).events ∧
    Event.closeSource ∉ (runMergeTs inpC3bad).events ∧
    Event.closeTarget ∉ (runMergeTs inpC3bad).events ∧
    (runMergeTs inpC3bad).exitCode = 2 := by decide

/-- C3, amended: once attach has succeeded, DETACH and the two handle closes
execute exactly on the runs that finish with exit code 0 (every table
processed without error); any post-attach failure exits the process without
detaching or closing. -/
theorem c3_amended (inp : RunInput) (h : Event.attach ∈ (runMergeTs inp).events) :
    (Event.detach ∈ (runMergeTs inp).events ↔ (runMergeTs inp).exitCode = 0) ∧
    (Event.closeSource ∈ (runMergeTs inp).events ↔ (runMergeTs inp).exitCode = 0) ∧
    (Event.closeTarget ∈ (runMergeTs inp).events ↔ (runMergeTs inp).exitCode = 0) := by
  by_cases h1 : inp.argc < 2
  · exfalso
    unfold runMergeTs at h
    rw [if_pos h1] at h
    simp at h
  · by_cases hmiss : inp.file1 ∉ inp.existing ∨ inp.file2 ∉ inp.existing
    · exfalso
      unfold runMergeTs at h
      rw [if_neg h1, if_pos hmiss] at h
      simp at h
    · by_cases h3 : attachOkM inp = true
      · cases hm : mergeTablesM (sourceTablesM inp) with
        | error e =>
          have hr : runMergeTs inp =
              { exitCode := 2, printedUsage := false, createdFiles := [finalOutputM inp]
                deletedFiles := [], events := [Event.attach], totalMerged := none } := by
            unfold runMergeTs
            rw [if_neg h1, if_neg hmiss, if_pos h3, hm]
          rw [hr]
          refine ⟨?_, ?_, ?_⟩ <;> simp
        | ok n =>
          have hr : runMergeTs inp =
              { exitCode := 0, printedUsage := false, createdFiles := [finalOutputM inp]
                deletedFiles := []
                events := [Event.attach, Event.detach, Event.closeSource, Event.closeTarget]
                totalMerged := some n } := by
            unfold runMergeTs
            rw [if_neg h1, if_neg hmiss, if_pos h3, hm]
          rw [hr]
          refine ⟨?_, ?_, ?_⟩ <;> simp
      · exfalso
        unfold runMergeTs at h
        rw [if_neg h1, if_neg hmiss, if_neg h3] at h
        simp at h

/-- C3, witness: the amended claim at a fully healthy run, whose events are
exactly attach, detach, and the two closes. -/
theorem c3_witness :
    (Event.detach ∈ (runMergeTs inpC3ok).events ↔ (runMergeTs inpC3ok).exitCode = 0) ∧
    (Event.closeSource ∈ (runMergeTs inpC3ok).events ↔ (runMergeTs inpC3ok).exitCode = 0) ∧
    (Event.closeTarget ∈ (runMergeTs inpC3ok).events ↔ (runMergeTs inpC3ok).exitCode = 0) :=
  c3_amended inpC3ok (by decide)

/-- C4, counterexample: `src/unnamed/part_002` does the opposite of the
claimed no-overwrite discipline at its fixed output path: when
`./merged_syria_bluemarble.gpkg` already exists it `unlinkSync`s it and copies
the base file to that same path, destroying the prior result. -/
theorem c4_counterexample :
    (runPart002 wC4).deletedFiles = [part002Output] ∧
    (runPart002 wC4).createdFiles = [part002Output] ∧
    (runPart002 wC4).exitCode = 0 := by decide

/-- C4, amended: in `src/merge.ts` the no-overwrite guarantee holds — when the
output path already exists the run deletes nothing and writes only the
timestamp-suffixed path, which always differs from the existing one — while
the fixed-path variants `part_001`/`part_002` unlink and rewrite the same
output path. -/
theorem c4_amended (inp : RunInput) (h2 : 2 ≤ inp.argc)
    (hf1 : inp.file1 ∈ inp.existing) (hf2 : inp.file2 ∈ inp.existing)
    (hout : outputFilenameM inp ∈ inp.existing) :
    (runMergeTs inp).deletedFiles = [] ∧
    (runMergeTs inp).createdFiles
      = [disambiguateM (outputFilenameM inp) (Nat.toDigits 10 inp.timestamp)] ∧
    disambiguateM (outputFilenameM inp) (Nat.toDigits 10 inp.timestamp)
      ≠ outputFilenameM inp := by
  have h1 : ¬ inp.argc < 2 := by omega
  have hmiss : ¬ (inp.file1 ∉ inp.existing ∨ inp.file2 ∉ inp.existing) :=
    fun hc => hc.elim (fun hx => hx hf1) (fun hx => hx hf2)
  obtain ⟨hd, hc⟩ := runMergeTs_files inp h1 hmiss
  refine ⟨hd, ?_, disambiguateM_ne _ _⟩
  rw [hc]
  unfold finalOutputM
  rw [if_pos hout]

/-- C4, witness: the amended claim at a run whose derived output
`merged_a_b.gpkg` already exists, with timestamp 42. -/
theorem c4_witness :
    (runMergeTs inpC4).deletedFiles = [] ∧
    (runMergeTs inpC4).createdFiles
      = [disambiguateM (outputFilenameM inpC4) (Nat.toDigits 10 inpC4.timestamp)] ∧
    disambiguateM (outputFilenameM inpC4) (Nat.toDigits 10 inpC4.timestamp)
      ≠ outputFilenameM inpC4 :=
  c4_amended inpC4 (by decide) (by decide) (by decide) (by decide)

/-- C5, counterexample: `src/unnamed/part_001` catches its fatal errors
without calling `process.exit`, so a run whose first fixed input file is
missing — a failure — still terminates with exit code 0, contradicting the
claimed two-tier exit-code contract for every run. -/
theorem c5_counterexample :
    (runPart001 wC5).failed = true ∧ (runPart001 wC5).exitCode = 0 := by decide

/-- C5, amended: `src/merge.ts` implements the two-tier contract — exit 1
exactly on a missing input, exit 0 exactly on a fully successful run, exit 2
exactly on any other (attach or per-table) failure — but the fixed-path
variants `part_001`/`part_002` exit 0 even on fatal failures. -/
theorem c5_amended (inp : RunInput) (h2 : 2 ≤ inp.argc) :
    ((runMergeTs inp).exitCode = 1 ↔
      (inp.file1 ∉ inp.existing ∨ inp.file2 ∉ inp.existing)) ∧
    ((runMergeTs inp).exitCode = 0 ↔
      (inp.file1 ∈ inp.existing ∧ inp.file2 ∈ inp.existing ∧
        attachOkM inp = true ∧ exOk (mergeTablesM (sourceTablesM inp)) = true)) ∧
    ((runMergeTs inp).exitCode = 2 ↔
      (inp.file1 ∈ inp.existing ∧ inp.file2 ∈ inp.existing ∧
        (attachOkM inp = false ∨ exOk (mergeTablesM (sourceTablesM inp)) = false))) := by
  have h1 : ¬ inp.argc < 2 := by omega
  by_cases hmiss : inp.file1 ∉ inp.existing ∨ inp.file2 ∉ inp.existing
  · have hr : runMergeTs inp =
        { exitCode := 1, printedUsage := false, createdFiles := [], deletedFiles := []
          events := [], totalMerged := none } := by
      unfold runMergeTs
      rw [if_neg h1, if_pos hmiss]
    rw [hr]
    refine ⟨⟨fun _ => hmiss, fun _ => rfl⟩, ?_, ?_⟩ <;>
      rcases hmiss with hm | hm <;> simp [hm]
  · push_neg at hmiss
    obtain ⟨hin1, hin2⟩ := hmiss
    have hmiss' : ¬ (inp.file1 ∉ inp.existing ∨ inp.file2 ∉ inp.existing) :=
      fun hc => hc.elim (fun hx => hx hin1) (fun hx => hx hin2)
    by_cases h3 : attachOkM inp = true
    · cases hm : mergeTablesM (sourceTablesM inp) with
      | error e =>
        have hr : runMergeTs inp =
            { exitCode := 2, printedUsage := false, createdFiles := [finalOutputM inp]
              deletedFiles := [], events := [Event.attach], totalMerged := none } := by
          unfold runMergeTs
          rw [if_neg h1, if_neg hmiss', if_pos h3, hm]
        rw [hr]
        refine ⟨?_, ?_, ?_⟩ <;> simp [hin1, hin2, h3, hm, exOk]
      | ok n =>
        have hr : runMergeTs inp =
            { exitCode := 0, printedUsage := false, createdFiles := [finalOutputM inp]
              deletedFiles := []
              events := [Event.attach, Event.detach, Event.closeSource, Event.closeTarget]
              totalMerged := some n } := by
          unfold runMergeTs
          rw [if_neg h1, if_neg hmiss', if_pos h3, hm]
        rw [hr]
        refine ⟨?_, ?_, ?_⟩ <;> simp [hin1, hin2, h3, hm, exOk]
    · have hr : runMergeTs inp =
          { exitCode := 2, printedUsage := false, createdFiles := [finalOutputM inp]
            deletedFiles := [], events := [], totalMerged := none } := by
        unfold runMergeTs
        rw [if_neg h1, if_neg hmiss', if_neg h3]
      rw [hr]
      have h3' : attachOkM inp = false := by
        cases hx : attachOkM inp
        · rfl
        · exact absurd hx h3
      refine ⟨?_, ?_, ?_⟩ <;> simp [hin1, hin2, h3']

/-- C5, witness: the amended claim at a run with a missing second input,
whose exit code is 1. -/
theorem c5_witness :
    ((runMergeTs inpC5w).exitCode = 1 ↔
      (inpC5w.file1 ∉ inpC5w.existing ∨ inpC5w.file2 ∉ inpC5w.existing)) ∧
    ((runMergeTs inpC5w).exitCode = 0 ↔
      (inpC5w.file1 ∈ inpC5w.existing ∧ inpC5w.file2 ∈ inpC5w.existing ∧
        attachOkM inpC5w = true ∧ exOk (mergeTablesM (sourceTablesM inpC5w)) = true)) ∧
    ((runMergeTs inpC5w).exitCode = 2 ↔
      (inpC5w.file1 ∈ inpC5w.existing ∧ inpC5w.file2 ∈ inpC5w.existing ∧
        (attachOkM inpC5w = false ∨ exOk (mergeTablesM (sourceTablesM inpC5w)) = false))) :=
  c5_amended inpC5w (by decide)

/-- C10, counterexample: the executed SQL is the verbatim interpolation
`ATTACH DATABASE '<file2>' AS source_db`, but not every quote-bearing path
breaks it: for the existing path `a''b.gpkg` the doubled quote parses as an
escaped quote, the statement is well-formed (it attaches the *different* path
`a'b.gpkg`), and the run exits 0 — refuting the claim's assertion that any
path containing a single-quote character makes the run fail with exit 2. -/
theorem c10_counterexample :
    squo ∈ pEsc ∧
    parseAttach (attachStatementM pEsc) = some ("a".toList ++ squo :: "b.gpkg".toList) ∧
    ("a".toList ++ squo :: "b.gpkg".toList) ≠ pEsc ∧
    (runMergeTs inpC10e).exitCode = 0 := by decide

/-- C10, amended: the interpolated attach statement is malformed exactly when
the path carries an *unpaired* single quote: for any existing second input of
the form `a'b` with quote-free `a` and `b`, the statement fails to parse and
the run exits with code 2 even though both inputs exist. -/
theorem c10_amended (inp : RunInput) (a b : List Char) (h2 : 2 ≤ inp.argc)
    (hf1 : inp.file1 ∈ inp.existing) (hf2 : inp.file2 ∈ inp.existing)
    (ha : squo ∉ a) (hb : squo ∉ b) (hp : inp.file2 = a ++ squo :: b) :
    parseAttach (attachStatementM inp.file2) = none ∧
    (runMergeTs inp).exitCode = 2 := by
  have hpn : parseAttach (attachStatementM inp.file2) = none := by
    rw [hp]
    exact parseAttach_unpairedQuote a b ha hb
  refine ⟨hpn, ?_⟩
  have hat : attachOkM inp = false := by
    unfold attachOkM
    rw [hpn]
    rfl
  unfold runMergeTs
  rw [if_neg (by omega : ¬ inp.argc < 2),
    if_neg (fun hc => hc.elim (fun hx => hx hf1) (fun hx => hx hf2)),
    if_neg (by rw [hat]; exact Bool.false_ne_true)]

/-- C10, witness: the amended claim at the existing source path `a'b.gpkg`. -/
theorem c10_witness :
    parseAttach (attachStatementM inpC10w.file2) = none ∧
    (runMergeTs inpC10w).exitCode = 2 :=
  c10_amended inpC10w "a".toList "b.gpkg".toList (by decide) (by decide) (by decide)
    (by decide) (by decide) rfl
